import Mathlib

/-!
Verification of the storage layer of the showthem server.

The server exposes a CRUD storage contract over two record types (groups and
videos) with two interchangeable backends: a flat-file backend (`fileStorage`,
one JSON document, read-modify-write) and a PostgreSQL backend
(`createPgStorage`, two tables with a FK from videos to groups, ON DELETE
CASCADE).  A standalone module (`db`, lib/db) duplicates the PostgreSQL
backend for the serverless deployment.

Modelling choices:
* JavaScript objects are modelled as structures; an optional field is an
  `Option String` (`none` models both a JSON-absent field and SQL NULL).
* A patch object is a structure of `Option` fields: `some s` means the field
  is present with string value `s` (possibly the empty string), `none` means
  the field is absent.  JS object spread is `applyGroupPatch` /
  `applyVideoPatch`; JS truthiness of a string (empty string is falsy) is
  spelled out at each use site, mirroring the source conditions.
* The JS expression `x || null` is `jsOrNull`: absent and empty strings are
  coerced to NULL.
* The wall clock read by `Date.now()` is passed as an explicit `now : Nat`.
* The database state is the contents of the two tables plus the SERIAL
  counter for videos.id (a DELETE does not reset the sequence).  A statement
  raising an error is an `Except.error` paired with the state at that point;
  single statements leave the state unchanged on error, loops may have
  committed earlier statements (there is no transaction in the source).
* SQL ORDER BY on a text column is modelled by insertion sort with a
  lexicographic code-point comparison (`strLe`); ORDER BY on the integer id
  column sorts by `Nat` order.
* SQL row matching of `WHERE id = $n` on the integer videos.id against the
  string route parameter is modelled by comparing the decimal string
  rendering of the row id with the parameter.
-/

namespace ShowThem

/-- A group record: `id` and `name` are required strings, `description` is
optional (`none` models an absent JSON field or SQL NULL). -/
structure Group where
  id : String
  name : String
  description : Option String
deriving DecidableEq

/-- A video record as surfaced through the storage contract.  `groupId` is
optional because the column is nullable and the JSON field may be absent;
`caption` and `description` are optional strings. -/
structure Video where
  id : String
  groupId : Option String
  url : String
  username : String
  caption : Option String
  description : Option String
deriving DecidableEq

/-- The whole dataset: the shape of the flat-file JSON document and of the
getData snapshot. -/
structure DataSet where
  groups : List Group
  videos : List Video
deriving DecidableEq

/-- A patch for updateGroup: each field is present (`some`, possibly the
empty string) or absent (`none`). -/
structure GroupPatch where
  id : Option String
  name : Option String
  description : Option String
deriving DecidableEq

/-- A patch for updateVideo; the flat-file backend spreads every present
field onto the record, the id field included. -/
structure VideoPatch where
  id : Option String
  groupId : Option String
  url : Option String
  username : Option String
  caption : Option String
  description : Option String
deriving DecidableEq

/-- JS `x || null` on an optional string: an absent value and the empty
string are falsy and become NULL. -/
def jsOrNull : Option String → Option String
  | none => none
  | some s => if s = "" then none else some s

/-- JS `findIndex` followed by an in-place assignment: replace the first
element satisfying `p` by its image under `f`, returning the new element and
the new list; `none` when `findIndex` returns -1. -/
def updateFirst (p : α → Bool) (f : α → α) : List α → Option (α × List α)
  | [] => none
  | x :: xs =>
    if p x then some (f x, f x :: xs)
    else (updateFirst p f xs).map (fun r => (r.1, x :: r.2))

/-- JS `findIndex` followed by `splice(index, 1)`: remove the first element
satisfying `p`; `none` when `findIndex` returns -1. -/
def removeFirst (p : α → Bool) : List α → Option (List α)
  | [] => none
  | x :: xs => if p x then some xs else (removeFirst p xs).map (x :: ·)

/-- Lexicographic code-point comparison of character lists, the model of
string comparison in SQL ORDER BY. -/
def charListLe : List Char → List Char → Bool
  | [], _ => true
  | _ :: _, [] => false
  | a :: as, b :: bs => if a < b then true else if b < a then false else charListLe as bs

/-- String comparison used to model `ORDER BY name`. -/
def strLe (a b : String) : Bool := charListLe a.data b.data

/-- Ordering of group rows by `ORDER BY name`. -/
def nameLe (a b : Group) : Prop := strLe a.name b.name = true

instance : DecidableRel nameLe := fun a b => instDecidableEqBool (strLe a.name b.name) true

-- ============================================
-- File Storage Implementation
-- ============================================

namespace fileStorage

/-- fileStorage.getData: read and parse the whole JSON document. -/
def getData (d : DataSet) : DataSet := d

/-- fileStorage.saveData: overwrite the document with `data`. -/
def saveData (data : DataSet) (_old : DataSet) : DataSet := data

/-- fileStorage.getGroups: the stored groups array, in stored order. -/
def getGroups (d : DataSet) : List Group := d.groups

/-- fileStorage.createGroup: push the group onto the array and write back;
there is no duplicate-id check. -/
def createGroup (group : Group) (d : DataSet) : Group × DataSet :=
  (group, { d with groups := d.groups ++ [group] })

/-- Object-spread merge of a patch onto a group record: fields present in
the patch overwrite, absent fields keep the stored value. -/
def applyGroupPatch (g : Group) (u : GroupPatch) : Group :=
  { id := u.id.getD g.id
    name := u.name.getD g.name
    description := match u.description with
      | some s => some s
      | none => g.description }

/-- fileStorage.updateGroup: find the group by id (null when absent); when
the patch carries a truthy id different from `id`, re-point every video
whose groupId is the old id; then spread-merge the patch onto the record
and write the document back. -/
def updateGroup (id : String) (updates : GroupPatch) (d : DataSet) :
    Option (Group × DataSet) :=
  match updateFirst (fun g => g.id == id) (fun g => applyGroupPatch g updates) d.groups with
  | none => none
  | some (g, groups) =>
    let videos :=
      match updates.id with
      | some s =>
        if s != "" && s != id then
          d.videos.map (fun v => if v.groupId == some id then { v with groupId := some s } else v)
        else d.videos
      | none => d.videos
    some (g, { groups := groups, videos := videos })

/-- fileStorage.deleteGroup: false when no group matches; otherwise splice
the group out, drop every video whose groupId is `id`, write back, true. -/
def deleteGroup (id : String) (d : DataSet) : Bool × DataSet :=
  match removeFirst (fun g => g.id == id) d.groups with
  | none => (false, d)
  | some groups =>
    (true, { groups := groups, videos := d.videos.filter (fun v => v.groupId != some id) })

/-- fileStorage.getVideos: the stored videos array, in stored order. -/
def getVideos (d : DataSet) : List Video := d.videos

/-- fileStorage.createVideo: overwrite the id with `Date.now().toString()`
(the clock tick is the explicit `now`), push and write back. -/
def createVideo (video : Video) (now : Nat) (d : DataSet) : Video × DataSet :=
  let v := { video with id := toString now }
  (v, { d with videos := d.videos ++ [v] })

/-- Object-spread merge of a patch onto a video record; a present id field
overwrites the stored id like any other field. -/
def applyVideoPatch (v : Video) (u : VideoPatch) : Video :=
  { id := u.id.getD v.id
    groupId := match u.groupId with
      | some s => some s
      | none => v.groupId
    url := u.url.getD v.url
    username := u.username.getD v.username
    caption := match u.caption with
      | some s => some s
      | none => v.caption
    description := match u.description with
      | some s => some s
      | none => v.description }

/-- fileStorage.updateVideo: find the video by id (null when absent),
spread-merge the patch onto it and write back. -/
def updateVideo (id : String) (updates : VideoPatch) (d : DataSet) :
    Option (Video × DataSet) :=
  match updateFirst (fun v => v.id == id) (fun v => applyVideoPatch v updates) d.videos with
  | none => none
  | some (v, videos) => some (v, { d with videos := videos })

/-- fileStorage.deleteVideo: false when no video matches; otherwise splice
it out and write back, true. -/
def deleteVideo (id : String) (d : DataSet) : Bool × DataSet :=
  match removeFirst (fun v => v.id == id) d.videos with
  | none => (false, d)
  | some videos => (true, { d with videos := videos })

end fileStorage

-- ============================================
-- PostgreSQL Storage Implementation
-- ============================================

/-- A row of the videos table: SERIAL integer primary key, nullable
group_id referencing groups(id) ON DELETE CASCADE, NOT NULL url and
username, nullable caption and description. -/
structure VideoRow where
  id : Nat
  groupId : Option String
  url : String
  username : String
  caption : Option String
  description : Option String
deriving DecidableEq

/-- Database state: the groups table, the videos table and the SERIAL
counter feeding videos.id (not reset by DELETE). -/
structure PgState where
  groups : List Group
  videos : List VideoRow
  nextId : Nat
deriving DecidableEq

/-- Errors a statement can raise: primary-key violation, NOT NULL
violation, foreign-key violation, and the JS TypeError thrown when code
iterates a missing array. -/
inductive Err where
  | duplicateKey
  | notNullViolation
  | fkViolation
  | typeError
deriving DecidableEq

deriving instance DecidableEq for Except

/-- Body of PUT /data: either array may be absent from the JSON payload. -/
structure Payload where
  groups : Option (List Group)
  videos : Option (List Video)
deriving DecidableEq

/-- Ordering of video rows by `ORDER BY id` on the integer column. -/
def rowIdLe (a b : VideoRow) : Prop := a.id ≤ b.id

instance : DecidableRel rowIdLe := fun a b => Nat.decLe a.id b.id

/-- INSERT INTO groups: fails on a duplicate primary key, stores the
description through the `|| null` coercion. -/
def insertGroupRow (group : Group) (st : PgState) : Except Err PgState :=
  if st.groups.any (fun g => g.id == group.id) then .error .duplicateKey
  else .ok { st with groups := st.groups ++
    [{ id := group.id, name := group.name, description := jsOrNull group.description }] }

/-- Append a videos row with the next SERIAL id and the `|| null` coercions
on caption and description. -/
def appendVideoRow (video : Video) (st : PgState) : PgState :=
  let row : VideoRow :=
    { id := st.nextId
      groupId := video.groupId
      url := video.url
      username := video.username
      caption := jsOrNull video.caption
      description := jsOrNull video.description }
  { st with videos := st.videos ++ [row], nextId := st.nextId + 1 }

/-- INSERT INTO videos: a non-null group_id must reference an existing
group (FK), otherwise the insert fails. -/
def insertVideoRow (video : Video) (st : PgState) : Except Err PgState :=
  match video.groupId with
  | some g =>
    if st.groups.any (fun h => h.id == g) then .ok (appendVideoRow video st)
    else .error .fkViolation
  | none => .ok (appendVideoRow video st)

/-- One INSERT statement per group of a bulk payload, stopping at the first
error with the rows inserted so far committed (no transaction). -/
def insertGroupsLoop : List Group → PgState → Except Err Unit × PgState
  | [], st => (.ok (), st)
  | g :: gs, st =>
    match insertGroupRow g st with
    | .error e => (.error e, st)
    | .ok st1 => insertGroupsLoop gs st1

/-- One INSERT statement per video of a bulk payload, stopping at the first
error with the rows inserted so far committed (no transaction). -/
def insertVideosLoop : List Video → PgState → Except Err Unit × PgState
  | [], st => (.ok (), st)
  | v :: vs, st =>
    match insertVideoRow v st with
    | .error e => (.error e, st)
    | .ok st1 => insertVideosLoop vs st1

/-- New group id written by updateGroup: `updates.id || id`, so an absent
or empty patch id falls back to the old id. -/
def patchedId (uid : Option String) (id : String) : String :=
  match uid with
  | some s => if s == "" then id else s
  | none => id

namespace createPgStorage

/-- SELECT * FROM groups ORDER BY name. -/
def getGroups (st : PgState) : List Group :=
  List.insertionSort nameLe st.groups

/-- Surface a videos row through the contract: the integer id is rendered
as a decimal string, group_id is aliased to groupId. -/
def rowToVideo (r : VideoRow) : Video :=
  { id := toString r.id, groupId := r.groupId, url := r.url,
    username := r.username, caption := r.caption, description := r.description }

/-- SELECT ... FROM videos ORDER BY id, ids stringified. -/
def getVideos (st : PgState) : List Video :=
  (List.insertionSort rowIdLe st.videos).map rowToVideo

/-- createPgStorage.getData: groups then videos. -/
def getData (st : PgState) : DataSet :=
  { groups := getGroups st, videos := getVideos st }

/-- createPgStorage.saveData: DELETE FROM videos, DELETE FROM groups, then
one INSERT per group and per video, no transaction.  The source iterates
`data.groups` and `data.videos` directly, so a payload missing either
array raises a TypeError after the deletes have run. -/
def saveData (data : Payload) (st : PgState) : Except Err Unit × PgState :=
  let st0 : PgState := { st with groups := [], videos := [] }
  match data.groups with
  | none => (.error .typeError, st0)
  | some gs =>
    match insertGroupsLoop gs st0 with
    | (.error e, st1) => (.error e, st1)
    | (.ok _, st1) =>
      match data.videos with
      | none => (.error .typeError, st1)
      | some vs => insertVideosLoop vs st1

/-- createPgStorage.createGroup: a single INSERT; on success the response
echoes the caller's object unchanged. -/
def createGroup (group : Group) (st : PgState) : Except Err Group × PgState :=
  match insertGroupRow group st with
  | .error e => (.error e, st)
  | .ok st1 => (.ok group, st1)

/-- createPgStorage.updateGroup: a single UPDATE setting id, name and
description on the row matching `id`, RETURNING the row (null when no row
matched).  An absent patch name is a NOT NULL violation; a rename collides
with an existing id (unique PK) or, when any video still references the
old id, violates the FK, which has no ON UPDATE CASCADE. -/
def updateGroup (id : String) (updates : GroupPatch) (st : PgState) :
    Except Err (Option Group) × PgState :=
  if st.groups.any (fun g => g.id == id) then
    match updates.name with
    | none => (.error .notNullViolation, st)
    | some nm =>
      let newId := patchedId updates.id id
      let g1 : Group := { id := newId, name := nm, description := jsOrNull updates.description }
      if newId != id && st.groups.any (fun g => g.id == newId) then
        (.error .duplicateKey, st)
      else if newId != id && st.videos.any (fun v => v.groupId == some id) then
        (.error .fkViolation, st)
      else
        (.ok (some g1), { st with groups := st.groups.map (fun g => if g.id == id then g1 else g) })
  else (.ok none, st)

/-- createPgStorage.deleteGroup: DELETE FROM groups WHERE id, with ON
DELETE CASCADE removing every referencing video; the result is
rowCount > 0. -/
def deleteGroup (id : String) (st : PgState) : Bool × PgState :=
  if st.groups.any (fun g => g.id == id) then
    (true, { st with groups := st.groups.filter (fun g => g.id != id),
                     videos := st.videos.filter (fun v => v.groupId != some id) })
  else (false, st)

/-- createPgStorage.createVideo: INSERT RETURNING id; the response is the
caller's object spread with the new stringified id. -/
def createVideo (video : Video) (st : PgState) : Except Err Video × PgState :=
  match insertVideoRow video st with
  | .error e => (.error e, st)
  | .ok st1 => (.ok { video with id := toString st.nextId }, st1)

/-- Column assignments of the videos UPDATE: group_id, url, username,
caption and description are written (caption and description through
`|| null`); the id column is not in the SET list. -/
def setVideoColumns (updates : VideoPatch) (url un : String) (r : VideoRow) : VideoRow :=
  { r with
    groupId := updates.groupId
    url := url
    username := un
    caption := jsOrNull updates.caption
    description := jsOrNull updates.description }

/-- Row update and RETURNING clause of the videos UPDATE: every row
matching the id gets the new column values, and rows[0] of the RETURNING
result is surfaced. -/
def runVideoUpdate (id : String) (updates : VideoPatch) (url un : String) (st : PgState) :
    Except Err (Option Video) × PgState :=
  let upd : VideoRow → VideoRow :=
    fun r => if toString r.id == id then setVideoColumns updates url un r else r
  (.ok ((st.videos.find? (fun r => toString r.id == id)).map (fun r => rowToVideo (upd r))),
   { st with videos := st.videos.map upd })

/-- createPgStorage.updateVideo: a single UPDATE of group_id, url,
username, caption and description WHERE id, RETURNING the row (null when
no row matched); the row id itself is never written.  An absent url or
username is a NOT NULL violation; a non-null group_id must reference an
existing group. -/
def updateVideo (id : String) (updates : VideoPatch) (st : PgState) :
    Except Err (Option Video) × PgState :=
  if st.videos.any (fun r => toString r.id == id) then
    match updates.url, updates.username with
    | some url, some un =>
      match updates.groupId with
      | some g =>
        if st.groups.any (fun h => h.id == g) then runVideoUpdate id updates url un st
        else (.error .fkViolation, st)
      | none => runVideoUpdate id updates url un st
    | _, _ => (.error .notNullViolation, st)
  else (.ok none, st)

/-- createPgStorage.deleteVideo: DELETE FROM videos WHERE id; the result is
rowCount > 0. -/
def deleteVideo (id : String) (st : PgState) : Bool × PgState :=
  if st.videos.any (fun r => toString r.id == id) then
    (true, { st with videos := st.videos.filter (fun r => toString r.id != id) })
  else (false, st)

end createPgStorage

-- ============================================
-- Standalone db module (lib/db)
-- ============================================

namespace db

/-- lib/db saveData: identical to createPgStorage.saveData except that the
iterated arrays default to the empty array when absent from the payload. -/
def saveData (data : Payload) (st : PgState) : Except Err Unit × PgState :=
  let st0 : PgState := { st with groups := [], videos := [] }
  match insertGroupsLoop (data.groups.getD []) st0 with
  | (.error e, st1) => (.error e, st1)
  | (.ok _, st1) => insertVideosLoop (data.videos.getD []) st1

/-- lib/db updateGroup: textually identical to createPgStorage.updateGroup. -/
def updateGroup (id : String) (updates : GroupPatch) (st : PgState) :
    Except Err (Option Group) × PgState :=
  if st.groups.any (fun g => g.id == id) then
    match updates.name with
    | none => (.error .notNullViolation, st)
    | some nm =>
      let newId := patchedId updates.id id
      let g1 : Group := { id := newId, name := nm, description := jsOrNull updates.description }
      if newId != id && st.groups.any (fun g => g.id == newId) then
        (.error .duplicateKey, st)
      else if newId != id && st.videos.any (fun v => v.groupId == some id) then
        (.error .fkViolation, st)
      else
        (.ok (some g1), { st with groups := st.groups.map (fun g => if g.id == id then g1 else g) })
  else (.ok none, st)

end db

-- ============================================
-- Helper lemmas
-- ============================================

theorem jsOrNull_eq_self {x : Option String} (h : x ≠ some "") : jsOrNull x = x := by
  cases x with
  | none => rfl
  | some s =>
    have hs : s ≠ "" := fun hs => h (by rw [hs])
    simp [jsOrNull, hs]

theorem updateFirst_eq_none {p : α → Bool} {f : α → α} {l : List α}
    (h : ∀ a ∈ l, p a = false) : updateFirst p f l = none := by
  induction l with
  | nil => rfl
  | cons x xs ih =>
    have hx : p x = false := h x (List.mem_cons_self x xs)
    simp [updateFirst, hx, ih fun a ha => h a (List.mem_cons_of_mem x ha)]

theorem updateFirst_of_find {p : α → Bool} (f : α → α) {l : List α} {x : α}
    (h : l.find? p = some x) : ∃ l1, updateFirst p f l = some (f x, l1) := by
  induction l with
  | nil => simp at h
  | cons y ys ih =>
    by_cases hy : p y = true
    · rw [List.find?_cons_of_pos _ hy, Option.some_inj] at h
      refine ⟨f y :: ys, ?_⟩
      rw [← h]
      simp [updateFirst, hy]
    · rw [List.find?_cons_of_neg _ (by simpa using hy)] at h
      obtain ⟨l1, hl1⟩ := ih h
      exact ⟨y :: l1, by simp [updateFirst, hy, hl1]⟩

theorem length_filter_le_one {f : α → β} [DecidableEq β] {l : List α}
    (h : (l.map f).Nodup) (b : β) :
    (l.filter (fun a => f a == b)).length ≤ 1 := by
  induction l with
  | nil => simp
  | cons x xs ih =>
    rw [List.map_cons, List.nodup_cons] at h
    by_cases hx : f x = b
    · have hnil : xs.filter (fun a => f a == b) = [] := by
        rw [List.filter_eq_nil_iff]
        intro a ha hab
        have hfa : f a = b := beq_iff_eq.mp hab
        exact h.1 (by rw [hx, ← hfa]; exact List.mem_map_of_mem f ha)
      simp [List.filter_cons, hx, hnil]
    · simpa [List.filter_cons, hx] using ih h.2

theorem updateFirst_eq_map {p : α → Bool} {f : α → α} {l : List α} {x : α}
    (hlen : (l.filter p).length ≤ 1) (hx : x ∈ l) (hpx : p x = true) :
    updateFirst p f l = some (f x, l.map fun a => if p a then f a else a) := by
  induction l with
  | nil => simp at hx
  | cons y ys ih =>
    by_cases hy : p y = true
    · have hys : ys.filter p = [] := by
        have h1 := hlen
        rw [List.filter_cons_of_pos hy, List.length_cons] at h1
        have h0 : (ys.filter p).length = 0 := by omega
        exact List.length_eq_zero.mp h0
      have hnoys : ∀ a ∈ ys, ¬ p a = true := List.filter_eq_nil_iff.mp hys
      have hxy : x = y := by
        rcases List.mem_cons.mp hx with h | h
        · exact h
        · exact absurd hpx (hnoys x h)
      subst hxy
      have hmap : ∀ zs : List α, (∀ a ∈ zs, ¬ p a = true) →
          (zs.map fun a => if p a then f a else a) = zs := by
        intro zs
        induction zs with
        | nil => intro _; rfl
        | cons w ws ihw =>
          intro hw
          simp only [List.map_cons, if_neg (hw w (List.mem_cons_self w ws))]
          rw [ihw fun a ha => hw a (List.mem_cons_of_mem w ha)]
      simp [updateFirst, hy, hmap ys hnoys]
    · have hmem : x ∈ ys := by
        rcases List.mem_cons.mp hx with h | h
        · exact absurd (h ▸ hpx) hy
        · exact h
      have hlen1 : (ys.filter p).length ≤ 1 := by
        rwa [List.filter_cons_of_neg (by simpa using hy)] at hlen
      simp [updateFirst, hy, ih hlen1 hmem]

theorem removeFirst_eq_none {p : α → Bool} {l : List α}
    (h : ∀ a ∈ l, p a = false) : removeFirst p l = none := by
  induction l with
  | nil => rfl
  | cons x xs ih =>
    have hx : p x = false := h x (List.mem_cons_self x xs)
    simp [removeFirst, hx, ih fun a ha => h a (List.mem_cons_of_mem x ha)]

theorem removeFirst_eq_filter {p : α → Bool} {l : List α} {x : α}
    (hlen : (l.filter p).length ≤ 1) (hx : x ∈ l) (hpx : p x = true) :
    removeFirst p l = some (l.filter fun a => !p a) := by
  induction l with
  | nil => simp at hx
  | cons y ys ih =>
    by_cases hy : p y = true
    · have hys : ys.filter p = [] := by
        have h1 := hlen
        rw [List.filter_cons_of_pos hy, List.length_cons] at h1
        have h0 : (ys.filter p).length = 0 := by omega
        exact List.length_eq_zero.mp h0
      have hnoys : ∀ a ∈ ys, ¬ p a = true := List.filter_eq_nil_iff.mp hys
      have hfilter : (ys.filter fun a => !p a) = ys := by
        rw [List.filter_eq_self]
        intro a ha
        simp [hnoys a ha]
      simp [removeFirst, hy, List.filter_cons, hfilter]
    · have hmem : x ∈ ys := by
        rcases List.mem_cons.mp hx with h | h
        · exact absurd (h ▸ hpx) hy
        · exact h
      have hlen1 : (ys.filter p).length ≤ 1 := by
        rwa [List.filter_cons_of_neg (by simpa using hy)] at hlen
      simp [removeFirst, hy, List.filter_cons, ih hlen1 hmem]

theorem updateFirst_map_proj {p : α → Bool} {f : α → α} {g : α → β} {y : α}
    (hg : ∀ a, g (f a) = g a) :
    ∀ {l l1 : List α}, updateFirst p f l = some (y, l1) → l1.map g = l.map g := by
  intro l
  induction l with
  | nil => intro l1 h; simp [updateFirst] at h
  | cons z zs ih =>
    intro l1 h
    by_cases hz : p z = true
    · simp only [updateFirst, if_pos hz, Option.some_inj, Prod.mk.injEq] at h
      rw [← h.2]
      simp [hg]
    · simp only [updateFirst, if_neg hz, Option.map_eq_some'] at h
      obtain ⟨⟨a, b⟩, hab, h2⟩ := h
      have h3 : a = y := congrArg Prod.fst h2
      have h4 : z :: b = l1 := congrArg Prod.snd h2
      subst h3
      rw [← h4]
      simp [List.map_cons, ih hab]

theorem charListLe_total : ∀ as bs : List Char, charListLe as bs = true ∨ charListLe bs as = true
  | [], _ => Or.inl rfl
  | _ :: _, [] => Or.inr rfl
  | a :: as, b :: bs => by
    rcases lt_trichotomy a b with h | h | h
    · left; simp [charListLe, h]
    · subst h
      rcases charListLe_total as bs with ih | ih
      · left; simpa [charListLe, lt_irrefl] using ih
      · right; simpa [charListLe, lt_irrefl] using ih
    · right; simp [charListLe, h]

theorem charListLe_trans : ∀ as bs cs : List Char, charListLe as bs = true →
    charListLe bs cs = true → charListLe as cs = true
  | [], _, _, _, _ => rfl
  | _ :: _, [], _, h1, _ => by simp [charListLe] at h1
  | _ :: _, _ :: _, [], _, h2 => by simp [charListLe] at h2
  | a :: as, b :: bs, c :: cs, h1, h2 => by
    rcases lt_trichotomy a b with hab | hab | hab
    · rcases lt_trichotomy b c with hbc | hbc | hbc
      · simp [charListLe, lt_trans hab hbc]
      · subst hbc; simp [charListLe, hab]
      · exfalso
        rw [charListLe, if_neg (asymm hbc), if_pos hbc] at h2
        exact Bool.false_ne_true h2
    · subst hab
      rcases lt_trichotomy a c with hac | hac | hac
      · simp [charListLe, hac]
      · subst hac
        have h1t : charListLe as bs = true := by
          simpa [charListLe, lt_irrefl] using h1
        have h2t : charListLe bs cs = true := by
          simpa [charListLe, lt_irrefl] using h2
        simpa [charListLe, lt_irrefl] using charListLe_trans as bs cs h1t h2t
      · exfalso
        rw [charListLe, if_neg (asymm hac), if_pos hac] at h2
        exact Bool.false_ne_true h2
    · exfalso
      rw [charListLe, if_neg (asymm hab), if_pos hab] at h1
      exact Bool.false_ne_true h1

theorem nameLe_total (a b : Group) : nameLe a b ∨ nameLe b a :=
  charListLe_total a.name.data b.name.data

theorem nameLe_trans {a b c : Group} (h1 : nameLe a b) (h2 : nameLe b c) : nameLe a c :=
  charListLe_trans a.name.data b.name.data c.name.data h1 h2

theorem getGroups_sorted (st : PgState) :
    List.Sorted nameLe (createPgStorage.getGroups st) :=
  @List.sorted_insertionSort Group nameLe _ ⟨nameLe_total⟩
    ⟨fun _ _ _ => nameLe_trans⟩ st.groups

theorem getGroups_count (st : PgState) (g : Group) :
    (createPgStorage.getGroups st).count g = st.groups.count g :=
  (List.perm_insertionSort nameLe st.groups).count_eq g

-- ============================================
-- Claim C1: updateGroup rename-and-repoint
-- ============================================

def dX1 : DataSet := ⟨[⟨"g1", "Cats", none⟩], [⟨"5", some "g1", "http://x", "u", none, none⟩]⟩

def pgX1 : PgState := ⟨[⟨"g1", "Cats", none⟩], [⟨5, some "g1", "http://x", "u", none, none⟩], 6⟩

/-- C1 counterexample: the claim fails in both backends.  Flat-file: a
patch id equal to the empty string differs from the old id but is falsy in
JS, so the group's id is overwritten to the empty string while the video
keeps groupId g1 — a video that referenced the old id does not reference
the patch id.  Relational: renaming g1 to g2 while a video references g1
raises a foreign-key violation (the FK has no ON UPDATE CASCADE) and
leaves the database unchanged, so the group with the old id remains. -/
theorem updateGroup_rename_cex :
    (fileStorage.updateGroup "g1" ⟨some "", none, none⟩ dX1).map
      (fun p => (p.1.id, p.2.videos.map Video.groupId)) = some ("", [some "g1"]) ∧
    ("" : String) ≠ "g1" ∧ some "g1" ≠ some ("" : String) ∧
    createPgStorage.updateGroup "g1" ⟨some "g2", some "Cats", none⟩ pgX1 =
      (.error .fkViolation, pgX1) := by decide

/-- C1 (amended): in the flat-file backend, when the patch carries a
non-empty id s different from id, updateGroup re-points every video that
referenced id to s and leaves no group with the old id; in the relational
backend the same rename fails with a foreign-key violation whenever some
video still references the old id — the FK has no ON UPDATE CASCADE and
the statement does not touch videos.group_id — leaving the database
unchanged (when no video references the old id, the rename succeeds and
the re-point requirement is vacuous). -/
theorem updateGroup_rename (d : DataSet) (st : PgState) (id s : String) (u : GroupPatch)
    (hid : u.id = some s) (hne : s ≠ id) (hnil : s ≠ "")
    (hnodup : (d.groups.map Group.id).Nodup)
    (g0 : Group) (hg0 : g0 ∈ d.groups) (hg0id : g0.id = id)
    (hname : u.name.isSome = true)
    (hpgmem : ∃ g ∈ st.groups, g.id = id)
    (hpgvid : ∃ v ∈ st.videos, v.groupId = some id)
    (hfresh : ∀ g ∈ st.groups, g.id ≠ s) :
    (∃ p, fileStorage.updateGroup id u d = some p ∧
      p.2.videos = d.videos.map
        (fun v => if v.groupId == some id then { v with groupId := some s } else v) ∧
      ∀ g ∈ p.2.groups, g.id ≠ id) ∧
    createPgStorage.updateGroup id u st = (.error .fkViolation, st) := by
  constructor
  · have hupd := updateFirst_eq_map (p := fun g => g.id == id)
      (f := fun g => fileStorage.applyGroupPatch g u)
      (length_filter_le_one hnodup id) hg0 (beq_iff_eq.mpr hg0id)
    have hcond : (s != "" && s != id) = true := by
      rw [Bool.and_eq_true, bne_iff_ne, bne_iff_ne]
      exact ⟨hnil, hne⟩
    refine ⟨(fileStorage.applyGroupPatch g0 u,
      ⟨d.groups.map fun a => if a.id == id then fileStorage.applyGroupPatch a u else a,
       d.videos.map fun v => if v.groupId == some id then { v with groupId := some s } else v⟩),
      ?_, rfl, ?_⟩
    · simp only [fileStorage.updateGroup, hupd, hid, hcond, if_true]
    · intro g hg
      obtain ⟨a, ha, rfl⟩ := List.mem_map.mp hg
      by_cases hcase : (a.id == id) = true
      · rw [if_pos hcase]
        simpa [fileStorage.applyGroupPatch, hid] using hne
      · rw [if_neg hcase]
        simpa using hcase
  · obtain ⟨gp, hgpmem, hgpid⟩ := hpgmem
    obtain ⟨vp, hvpmem, hvpgid⟩ := hpgvid
    have hany : st.groups.any (fun g => g.id == id) = true :=
      List.any_eq_true.mpr ⟨gp, hgpmem, beq_iff_eq.mpr hgpid⟩
    obtain ⟨nm, hnm⟩ := Option.isSome_iff_exists.mp hname
    have hsne : (s == "") = false := beq_eq_false_iff_ne.mpr hnil
    have hpid : patchedId u.id id = s := by simp [patchedId, hid, hsne]
    have hdup : st.groups.any (fun g => g.id == patchedId u.id id) = false := by
      rw [hpid, List.any_eq_false]
      intro g hgmem
      simpa using hfresh g hgmem
    have hvany : st.videos.any (fun v => v.groupId == some id) = true :=
      List.any_eq_true.mpr ⟨vp, hvpmem, beq_iff_eq.mpr hvpgid⟩
    have hneq : (patchedId u.id id != id) = true := by
      rw [hpid]
      exact bne_iff_ne.mpr hne
    simp [createPgStorage.updateGroup, hany, hnm, hneq, hdup, hvany]

def dW1 : DataSet := ⟨[⟨"g1", "Cats", none⟩], [⟨"5", some "g1", "http://x", "u", none, none⟩]⟩

def pgW1 : PgState := ⟨[⟨"g1", "Cats", none⟩], [⟨5, some "g1", "http://x", "u", none, none⟩], 6⟩

def upW1 : GroupPatch := ⟨some "g2", some "Cats", none⟩

/-- Witness for the C1 theorem at a concrete rename g1 to g2. -/
theorem updateGroup_rename_witness :
    (∃ p, fileStorage.updateGroup "g1" upW1 dW1 = some p ∧
      p.2.videos = dW1.videos.map
        (fun v => if v.groupId == some "g1" then { v with groupId := some "g2" } else v) ∧
      ∀ g ∈ p.2.groups, g.id ≠ "g1") ∧
    createPgStorage.updateGroup "g1" upW1 pgW1 = (.error .fkViolation, pgW1) :=
  updateGroup_rename dW1 pgW1 "g1" "g2" upW1 rfl (by decide) (by decide) (by decide)
    ⟨"g1", "Cats", none⟩ (by decide) rfl rfl
    ⟨⟨"g1", "Cats", none⟩, by decide, rfl⟩
    ⟨⟨5, some "g1", "http://x", "u", none, none⟩, by decide, rfl⟩
    (by decide)

-- ============================================
-- Claim C6: updateGroup merge semantics
-- ============================================

def pgX6 : PgState := ⟨[⟨"g1", "Cats", some "keep me"⟩], [], 1⟩

/-- C6 counterexample: the relational backend does not merge: a patch that
only sets the name clobbers the stored description to NULL, so a field
absent from the patch does not keep its previous value. -/
theorem updateGroup_merge_cex :
    createPgStorage.updateGroup "g1" ⟨none, some "Dogs", none⟩ pgX6 =
      (.ok (some ⟨"g1", "Dogs", none⟩), ⟨[⟨"g1", "Dogs", none⟩], [], 1⟩) ∧
    some "keep me" ≠ (none : Option String) := by decide

/-- C6 (amended): updateGroup returns NotFound (null) in both backends when
no group has id; when a group is found, the flat-file backend spread-merges
the patch onto the existing record — fields absent from the patch keep
their previous values and present fields overwrite them.  The relational
backend instead overwrites every column (see the counterexample). -/
theorem updateGroup_merge (d : DataSet) (st : PgState) (id : String) (u : GroupPatch) :
    (∀ g : Group, d.groups.find? (fun g => g.id == id) = some g →
      ∃ p, fileStorage.updateGroup id u d = some p ∧
        (u.name = none → p.1.name = g.name) ∧
        (u.description = none → p.1.description = g.description) ∧
        (u.id = none → p.1.id = g.id) ∧
        (∀ s, u.name = some s → p.1.name = s) ∧
        (∀ s, u.description = some s → p.1.description = some s) ∧
        (∀ s, u.id = some s → p.1.id = s)) ∧
    ((∀ g ∈ d.groups, g.id ≠ id) → fileStorage.updateGroup id u d = none) ∧
    ((∀ g ∈ st.groups, g.id ≠ id) → createPgStorage.updateGroup id u st = (.ok none, st)) := by
  refine ⟨?_, ?_, ?_⟩
  · intro g hfind
    obtain ⟨l1, hl1⟩ :=
      updateFirst_of_find (fun g => fileStorage.applyGroupPatch g u) hfind
    refine ⟨(fileStorage.applyGroupPatch g u,
      { groups := l1,
        videos := match u.id with
          | some s =>
            if s != "" && s != id then
              d.videos.map
                (fun v => if v.groupId == some id then { v with groupId := some s } else v)
            else d.videos
          | none => d.videos }), ?_, ?_, ?_, ?_, ?_, ?_, ?_⟩
    · simp only [fileStorage.updateGroup, hl1]
    · intro hn
      simp [fileStorage.applyGroupPatch, hn]
    · intro hn
      simp [fileStorage.applyGroupPatch, hn]
    · intro hn
      simp [fileStorage.applyGroupPatch, hn]
    · intro s hs
      simp [fileStorage.applyGroupPatch, hs]
    · intro s hs
      simp [fileStorage.applyGroupPatch, hs]
    · intro s hs
      simp [fileStorage.applyGroupPatch, hs]
  · intro h
    have hnone : updateFirst (fun g => g.id == id)
        (fun g => fileStorage.applyGroupPatch g u) d.groups = none :=
      updateFirst_eq_none fun g hg => beq_eq_false_iff_ne.mpr (h g hg)
    simp [fileStorage.updateGroup, hnone]
  · intro h
    have hany : st.groups.any (fun g => g.id == id) = false := by
      rw [List.any_eq_false]
      intro g hg
      simpa using h g hg
    simp [createPgStorage.updateGroup, hany]

def dW6 : DataSet := ⟨[⟨"g1", "Cats", some "desc"⟩], []⟩

def pgW6 : PgState := ⟨[⟨"g1", "Cats", some "desc"⟩], [], 1⟩

def upW6 : GroupPatch := ⟨none, some "Dogs", none⟩

/-- Witness for the C6 theorem: a concrete merge keeping the description
while overwriting the name, and concrete NotFound results. -/
theorem updateGroup_merge_witness :
    (∃ p, fileStorage.updateGroup "g1" upW6 dW6 = some p ∧
       p.1.name = "Dogs" ∧ p.1.description = some "desc") ∧
    fileStorage.updateGroup "gX" upW6 dW6 = none ∧
    createPgStorage.updateGroup "gX" upW6 pgW6 = (.ok none, pgW6) := by
  refine ⟨?_, ?_, ?_⟩
  · obtain ⟨p, hp, hc⟩ :=
      (updateGroup_merge dW6 pgW6 "g1" upW6).1 ⟨"g1", "Cats", some "desc"⟩ (by decide)
    exact ⟨p, hp, hc.2.2.2.1 "Dogs" rfl, hc.2.1 rfl⟩
  · exact (updateGroup_merge dW6 pgW6 "gX" upW6).2.1 (by decide)
  · exact (updateGroup_merge dW6 pgW6 "gX" upW6).2.2 (by decide)

-- ============================================
-- Claim C2: deleteGroup
-- ============================================

/-- C2: deleteGroup(id) returns false and leaves the dataset unchanged when
no group has id; otherwise it removes that group, removes every video whose
groupId equals id, and returns true — in both backends.  Group ids are
assumed unique in the flat-file document (the data model's primary-key
invariant). -/
theorem deleteGroup_spec (id : String) (d : DataSet) (st : PgState)
    (hnodup : (d.groups.map Group.id).Nodup) :
    ((∀ g ∈ d.groups, g.id ≠ id) → fileStorage.deleteGroup id d = (false, d)) ∧
    (∀ g ∈ d.groups, g.id = id →
      fileStorage.deleteGroup id d =
        (true, { groups := d.groups.filter (fun g => g.id != id),
                 videos := d.videos.filter (fun v => v.groupId != some id) })) ∧
    ((∀ g ∈ st.groups, g.id ≠ id) → createPgStorage.deleteGroup id st = (false, st)) ∧
    (∀ g ∈ st.groups, g.id = id →
      createPgStorage.deleteGroup id st =
        (true, { st with groups := st.groups.filter (fun g => g.id != id),
                         videos := st.videos.filter (fun v => v.groupId != some id) })) := by
  refine ⟨?_, ?_, ?_, ?_⟩
  · intro h
    have hnone : removeFirst (fun g => g.id == id) d.groups = none :=
      removeFirst_eq_none fun g hg => beq_eq_false_iff_ne.mpr (h g hg)
    simp [fileStorage.deleteGroup, hnone]
  · intro g hg hid
    have hrem : removeFirst (fun g => g.id == id) d.groups =
        some (d.groups.filter fun a => !(a.id == id)) :=
      removeFirst_eq_filter (length_filter_le_one hnodup id) hg (beq_iff_eq.mpr hid)
    simp only [fileStorage.deleteGroup, hrem]
    rfl
  · intro h
    have hany : st.groups.any (fun g => g.id == id) = false := by
      rw [List.any_eq_false]
      intro g hg
      simpa using h g hg
    simp [createPgStorage.deleteGroup, hany]
  · intro g hg hid
    have hany : st.groups.any (fun g => g.id == id) = true :=
      List.any_eq_true.mpr ⟨g, hg, beq_iff_eq.mpr hid⟩
    simp [createPgStorage.deleteGroup, hany]

def dW2 : DataSet :=
  ⟨[⟨"g1", "Cats", none⟩, ⟨"g2", "Dogs", none⟩],
   [⟨"5", some "g1", "http://x", "u", none, none⟩, ⟨"6", some "g2", "http://y", "w", none, none⟩]⟩

def pgW2 : PgState := ⟨[⟨"g1", "Cats", none⟩], [⟨5, some "g1", "http://x", "u", none, none⟩], 6⟩

/-- Witness for the C2 theorem at a concrete dataset and database state. -/
theorem deleteGroup_spec_witness :
    fileStorage.deleteGroup "g1" dW2 =
      (true, { groups := dW2.groups.filter (fun g => g.id != "g1"),
               videos := dW2.videos.filter (fun v => v.groupId != some "g1") }) ∧
    createPgStorage.deleteGroup "gX" pgW2 = (false, pgW2) :=
  ⟨(deleteGroup_spec "g1" dW2 pgW2 (by decide)).2.1 ⟨"g1", "Cats", none⟩ (by decide) rfl,
   (deleteGroup_spec "gX" dW2 pgW2 (by decide)).2.2.1 (by decide)⟩

-- ============================================
-- Claim C3: createGroup duplicate handling
-- ============================================

def gC3 : Group := ⟨"g1", "Cats", none⟩

/-- C3 counterexample: the flat-file backend performs no duplicate-id check:
createGroup on a dataset already containing the id succeeds and the dataset
now holds two groups with the same id, contradicting the claim that both
backends fail with DuplicateKey and leave the dataset unchanged. -/
theorem createGroup_duplicate_cex :
    fileStorage.createGroup gC3 ⟨[gC3], []⟩ = (gC3, ⟨[gC3, gC3], []⟩) := by decide

/-- C3 (amended): with a group of the same id already present, the
relational backend's createGroup fails with DuplicateKey (primary-key
constraint) and leaves the database unchanged, while the flat-file backend
performs no duplicate check and appends the group to the dataset. -/
theorem createGroup_duplicate (g : Group) (st : PgState) (d : DataSet)
    (hdup : ∃ h ∈ st.groups, h.id = g.id) :
    createPgStorage.createGroup g st = (.error .duplicateKey, st) ∧
    fileStorage.createGroup g d = (g, { d with groups := d.groups ++ [g] }) := by
  constructor
  · obtain ⟨h0, hmem, hid⟩ := hdup
    have hany : st.groups.any (fun h => h.id == g.id) = true :=
      List.any_eq_true.mpr ⟨h0, hmem, beq_iff_eq.mpr hid⟩
    simp [createPgStorage.createGroup, insertGroupRow, hany]
  · rfl

def pgW3 : PgState := ⟨[⟨"g1", "Cats", none⟩], [], 1⟩

/-- Witness for the C3 theorem at a concrete database state. -/
theorem createGroup_duplicate_witness :
    createPgStorage.createGroup ⟨"g1", "Other", some "x"⟩ pgW3 = (.error .duplicateKey, pgW3) ∧
    fileStorage.createGroup ⟨"g1", "Other", some "x"⟩ ⟨[], []⟩ =
      (⟨"g1", "Other", some "x"⟩, ⟨[⟨"g1", "Other", some "x"⟩], []⟩) :=
  ⟨(createGroup_duplicate ⟨"g1", "Other", some "x"⟩ pgW3 ⟨[], []⟩
      ⟨⟨"g1", "Cats", none⟩, by decide, rfl⟩).1,
   (createGroup_duplicate ⟨"g1", "Other", some "x"⟩ pgW3 ⟨[], []⟩
      ⟨⟨"g1", "Cats", none⟩, by decide, rfl⟩).2⟩

-- ============================================
-- Claim C4: replaceAll / getAll round trip
-- ============================================

def gX4 : Group := ⟨"g1", "Cats", some ""⟩

def vX4 : Video := ⟨"1", some "g1", "http://x", "u", some "", none⟩

/-- C4 counterexample: in the relational backend the round trip is not
faithful for empty-string optional fields: a video caption and a group
description equal to the empty string come back as NULL after
replaceAll + getAll, because the inserts evaluate them through `|| null`;
the returned video does not have the same caption as V and the returned
group is not G. -/
theorem saveData_roundtrip_cex :
    (createPgStorage.saveData ⟨some [gX4], some [vX4]⟩ ⟨[], [], 1⟩).1 = .ok () ∧
    createPgStorage.getData (createPgStorage.saveData ⟨some [gX4], some [vX4]⟩ ⟨[], [], 1⟩).2 =
      ⟨[⟨"g1", "Cats", none⟩], [⟨"1", some "g1", "http://x", "u", none, none⟩]⟩ ∧
    gX4.description = some "" ∧ vX4.caption = some "" ∧
    some "" ≠ (none : Option String) := by decide

/-- C4 (amended): replaceAll followed by getAll round-trips a single group
G and a single video V referencing it: the flat-file backend returns the
payload verbatim; the relational backend returns G and a video equal to V
except for a freshly assigned id, provided none of the optional fields is
the empty string (the relational backend coerces an empty caption or
description to NULL on write). -/
theorem saveData_roundtrip (G : Group) (V : Video) (st : PgState) (payload d : DataSet)
    (hgv : V.groupId = some G.id)
    (hgd : G.description ≠ some "") (hvc : V.caption ≠ some "")
    (hvd : V.description ≠ some "") :
    fileStorage.getData (fileStorage.saveData payload d) = payload ∧
    (createPgStorage.saveData ⟨some [G], some [V]⟩ st).1 = .ok () ∧
    createPgStorage.getData (createPgStorage.saveData ⟨some [G], some [V]⟩ st).2 =
      { groups := [G], videos := [{ V with id := toString st.nextId }] } := by
  have hsave : createPgStorage.saveData ⟨some [G], some [V]⟩ st =
      (.ok (), ⟨[G], [⟨st.nextId, V.groupId, V.url, V.username, V.caption, V.description⟩],
        st.nextId + 1⟩) := by
    simp [createPgStorage.saveData, insertGroupsLoop, insertVideosLoop, insertGroupRow,
      appendVideoRow, insertVideoRow, hgv, jsOrNull_eq_self hgd, jsOrNull_eq_self hvc,
      jsOrNull_eq_self hvd]
  refine ⟨rfl, ?_, ?_⟩
  · rw [hsave]
  · rw [hsave]
    simp [createPgStorage.getData, createPgStorage.getGroups, createPgStorage.getVideos,
      createPgStorage.rowToVideo, List.insertionSort, hgv]

def gW4 : Group := ⟨"g1", "Cats", none⟩

def vW4 : Video := ⟨"ignored", some "g1", "http://x", "u", some "cap", none⟩

def pgW4 : PgState := ⟨[⟨"old", "Old", none⟩], [⟨3, some "old", "http://o", "q", none, none⟩], 9⟩

/-- Witness for the C4 theorem at a concrete payload and database state. -/
theorem saveData_roundtrip_witness :
    fileStorage.getData (fileStorage.saveData ⟨[gW4], [vW4]⟩ ⟨[], []⟩) = ⟨[gW4], [vW4]⟩ ∧
    (createPgStorage.saveData ⟨some [gW4], some [vW4]⟩ pgW4).1 = .ok () ∧
    createPgStorage.getData (createPgStorage.saveData ⟨some [gW4], some [vW4]⟩ pgW4).2 =
      { groups := [gW4], videos := [{ vW4 with id := toString pgW4.nextId }] } :=
  saveData_roundtrip gW4 vW4 pgW4 ⟨[gW4], [vW4]⟩ ⟨[], []⟩ rfl (by decide) (by decide) (by decide)

-- ============================================
-- Claim C5: createVideo id generation
-- ============================================

def vC5 : Video := ⟨"caller", some "g1", "http://x", "u", none, none⟩

/-- C5: fileStorage.createVideo derives the id from Date.now().toString();
two sequential calls landing on the same millisecond tick (here 7) assign
the SAME id to both stored records, so sequential createVideo calls do not
always yield distinct ids.  The caller-supplied id is indeed discarded. -/
theorem createVideo_same_tick_collision :
    (fileStorage.createVideo vC5 7 ⟨[], []⟩).1.id = "7" ∧
    (fileStorage.createVideo vC5 7 (fileStorage.createVideo vC5 7 ⟨[], []⟩).2).1.id = "7" ∧
    vC5.id ≠ "7" ∧
    ((fileStorage.createVideo vC5 7 (fileStorage.createVideo vC5 7 ⟨[], []⟩).2).2.videos.map
      Video.id) = ["7", "7"] := by decide

-- ============================================
-- Claim C8: createGroup then listGroups
-- ============================================

def gX8 : Group := ⟨"g1", "Cats", some ""⟩

/-- C8 counterexample: in the relational backend a group created with an
empty-string description is stored with a NULL description, so listGroups
afterwards contains no entry equal to the submitted group. -/
theorem createGroup_then_list_cex :
    (createPgStorage.createGroup gX8 ⟨[], [], 1⟩).1 = .ok gX8 ∧
    createPgStorage.getGroups (createPgStorage.createGroup gX8 ⟨[], [], 1⟩).2 =
      [⟨"g1", "Cats", none⟩] ∧
    (createPgStorage.getGroups (createPgStorage.createGroup gX8 ⟨[], [], 1⟩).2).count gX8 =
      0 := by decide

/-- C8 (amended): for a group g whose id is fresh, createGroup followed by
listGroups yields exactly one entry equal to g — unconditionally in the
flat-file backend, and in the relational backend provided g.description is
not the empty string (an empty description is stored as NULL). -/
theorem createGroup_then_list (g : Group) (d : DataSet) (st : PgState)
    (hd : ∀ h ∈ d.groups, h.id ≠ g.id)
    (hst : ∀ h ∈ st.groups, h.id ≠ g.id)
    (hdesc : g.description ≠ some "") :
    (fileStorage.getGroups (fileStorage.createGroup g d).2).count g = 1 ∧
    (createPgStorage.createGroup g st).1 = .ok g ∧
    (createPgStorage.getGroups (createPgStorage.createGroup g st).2).count g = 1 := by
  have hnotmem : ∀ (l : List Group), (∀ h ∈ l, h.id ≠ g.id) → l.count g = 0 := by
    intro l hl
    rw [List.count_eq_zero]
    intro hmem
    exact hl g hmem rfl
  have hone : ∀ (l : List Group), (∀ h ∈ l, h.id ≠ g.id) → (l ++ [g]).count g = 1 := by
    intro l hl
    rw [List.count_append, hnotmem l hl, List.count_singleton]
    simp
  have hanyst : st.groups.any (fun h => h.id == g.id) = false := by
    rw [List.any_eq_false]
    intro h hmem
    simpa using hst h hmem
  have hinsert : insertGroupRow g st =
      .ok { st with groups := st.groups ++ [g] } := by
    simp [insertGroupRow, hanyst, jsOrNull_eq_self hdesc]
  refine ⟨hone d.groups hd, ?_, ?_⟩
  · simp [createPgStorage.createGroup, hinsert]
  · have hres : (createPgStorage.createGroup g st).2 = { st with groups := st.groups ++ [g] } := by
      simp [createPgStorage.createGroup, hinsert]
    rw [hres, getGroups_count]
    exact hone st.groups hst

def gW8 : Group := ⟨"g2", "Birds", none⟩

def dW8 : DataSet := ⟨[⟨"g1", "Cats", none⟩], []⟩

def pgW8 : PgState := ⟨[⟨"g1", "Cats", none⟩], [], 1⟩

/-- Witness for the C8 theorem at a concrete fresh group. -/
theorem createGroup_then_list_witness :
    (fileStorage.getGroups (fileStorage.createGroup gW8 dW8).2).count gW8 = 1 ∧
    (createPgStorage.createGroup gW8 pgW8).1 = .ok gW8 ∧
    (createPgStorage.getGroups (createPgStorage.createGroup gW8 pgW8).2).count gW8 = 1 :=
  createGroup_then_list gW8 dW8 pgW8 (by decide) (by decide) (by decide)

-- ============================================
-- Claim C9: updateVideo id immutability
-- ============================================

def dX9 : DataSet := ⟨[], [⟨"1", some "g", "http://x", "u", none, none⟩]⟩

/-- C9 counterexample: in the flat-file backend the spread merge writes a
patch id field onto the stored record: updating video 1 with a patch
carrying id 2 returns and stores a record whose id is 2, so the id is not
left unchanged for every patch. -/
theorem updateVideo_id_frame_cex :
    (fileStorage.updateVideo "1" ⟨some "2", none, none, none, none, none⟩ dX9).map
      (fun p => (p.1.id, p.2.videos.map Video.id)) = some ("2", ["2"]) ∧
    ("2" : String) ≠ "1" := by decide

/-- C9 (amended): updateVideo never changes the stored video ids in the
relational backend — the UPDATE does not write the id column and the
returned record carries the requested id; in the flat-file backend this
holds only when the patch carries no id field (a present patch id field
overwrites the stored id, see the counterexample). -/
theorem updateVideo_id_frame (id : String) (u : VideoPatch) (st : PgState) (d : DataSet)
    (r : VideoRow) (v : Video) (url un : String)
    (hr : st.videos.find? (fun r => toString r.id == id) = some r)
    (hurl : u.url = some url) (hun : u.username = some un)
    (hfk : ∀ s, u.groupId = some s → ∃ h ∈ st.groups, h.id = s)
    (hfile : u.id = none)
    (hv : d.videos.find? (fun v => v.id == id) = some v) :
    (∃ res st1, createPgStorage.updateVideo id u st = (.ok (some res), st1) ∧
      res.id = id ∧ st1.videos.map VideoRow.id = st.videos.map VideoRow.id) ∧
    (∃ p, fileStorage.updateVideo id u d = some p ∧ p.1.id = v.id ∧
      p.2.videos.map Video.id = d.videos.map Video.id) := by
  constructor
  · have hmem := List.mem_of_find?_eq_some hr
    have hpred : (toString r.id == id) = true := by
      have h := List.find?_some hr
      simpa using h
    have hany : st.videos.any (fun r => toString r.id == id) = true :=
      List.any_eq_true.mpr ⟨r, hmem, hpred⟩
    have hidkeep : ∀ w : VideoRow,
        ((if toString w.id == id then createPgStorage.setVideoColumns u url un w else w) :
          VideoRow).id = w.id := by
      intro w
      by_cases hw : (toString w.id == id) = true
      · simp [hw, createPgStorage.setVideoColumns]
      · simp [hw]
    have hrun : createPgStorage.runVideoUpdate id u url un st =
        (.ok (some (createPgStorage.rowToVideo (createPgStorage.setVideoColumns u url un r))),
         { st with videos := st.videos.map (fun w => if toString w.id == id then createPgStorage.setVideoColumns u url un w else w) }) := by
      have hpred2 : toString r.id = id := beq_iff_eq.mp hpred
      simp [createPgStorage.runVideoUpdate, hr, hpred2]
    have hmain : createPgStorage.updateVideo id u st =
        createPgStorage.runVideoUpdate id u url un st := by
      cases hg : u.groupId with
      | none => simp [createPgStorage.updateVideo, hany, hurl, hun, hg]
      | some s =>
        obtain ⟨h0, hmem0, hid0⟩ := hfk s hg
        have hanyg : st.groups.any (fun h => h.id == s) = true :=
          List.any_eq_true.mpr ⟨h0, hmem0, beq_iff_eq.mpr hid0⟩
        simp [createPgStorage.updateVideo, hany, hurl, hun, hg, hanyg]
    refine ⟨createPgStorage.rowToVideo (createPgStorage.setVideoColumns u url un r), _,
      by rw [hmain, hrun], ?_, ?_⟩
    · show (createPgStorage.rowToVideo (createPgStorage.setVideoColumns u url un r)).id = id
      have hkeep : (createPgStorage.setVideoColumns u url un r).id = r.id := by
        simp [createPgStorage.setVideoColumns]
      rw [createPgStorage.rowToVideo, hkeep]
      exact beq_iff_eq.mp hpred
    · show (st.videos.map fun w =>
          if toString w.id == id then createPgStorage.setVideoColumns u url un w else w).map
            VideoRow.id = st.videos.map VideoRow.id
      rw [List.map_map]
      exact List.map_congr_left fun w _ => hidkeep w
  · obtain ⟨l1, hl1⟩ := updateFirst_of_find (fun v => fileStorage.applyVideoPatch v u) hv
    refine ⟨(fileStorage.applyVideoPatch v u, { d with videos := l1 }), ?_, ?_, ?_⟩
    · simp [fileStorage.updateVideo, hl1]
    · simp [fileStorage.applyVideoPatch, hfile]
    · exact updateFirst_map_proj
        (fun a => by simp [fileStorage.applyVideoPatch, hfile]) hl1

def pgW9 : PgState := ⟨[⟨"g1", "Cats", none⟩], [⟨5, some "g1", "http://x", "u", none, none⟩], 6⟩

def dW9 : DataSet := ⟨[], [⟨"5", some "g1", "http://x", "u", none, none⟩]⟩

def upW9 : VideoPatch := ⟨none, some "g1", some "http://y", some "u2", none, none⟩

/-- Witness for the C9 theorem at a concrete update of video 5. -/
theorem updateVideo_id_frame_witness :
    (∃ res st1, createPgStorage.updateVideo "5" upW9 pgW9 = (.ok (some res), st1) ∧
      res.id = "5" ∧ st1.videos.map VideoRow.id = pgW9.videos.map VideoRow.id) ∧
    (∃ p, fileStorage.updateVideo "5" upW9 dW9 = some p ∧
      p.1.id = (⟨"5", some "g1", "http://x", "u", none, none⟩ : Video).id ∧
      p.2.videos.map Video.id = dW9.videos.map Video.id) :=
  updateVideo_id_frame "5" upW9 pgW9 dW9 ⟨5, some "g1", "http://x", "u", none, none⟩
    ⟨"5", some "g1", "http://x", "u", none, none⟩ "http://y" "u2"
    (by decide) rfl rfl
    (fun s hs => ⟨⟨"g1", "Cats", none⟩, by decide, by
      have : s = "g1" := by
        have h := hs
        rw [show upW9.groupId = some "g1" from rfl, Option.some_inj] at h
        exact h.symm
      rw [this]⟩)
    rfl (by decide)

-- ============================================
-- Claim C10: the two relational implementations
-- ============================================

def pgX10 : PgState := ⟨[⟨"g", "n", none⟩], [], 7⟩

/-- C10 counterexample: on a bulk-replace payload missing the groups array
the two relational implementations disagree: the monolithic adapter raises
a TypeError (after the two DELETEs have emptied the tables), while the
standalone db module treats the missing array as empty and succeeds. -/
theorem pg_db_equiv_cex :
    createPgStorage.saveData ⟨none, some []⟩ pgX10 = (.error .typeError, ⟨[], [], 7⟩) ∧
    db.saveData ⟨none, some []⟩ pgX10 = (.ok (), ⟨[], [], 7⟩) ∧
    createPgStorage.saveData ⟨none, some []⟩ pgX10 ≠ db.saveData ⟨none, some []⟩ pgX10 := by
  decide

/-- C10 (amended): the monolithic adapter and the standalone db module
agree on updateGroup — the two definitions are equal as functions — and on
saveData for every payload carrying both arrays; they differ only on
payloads with a missing groups or videos array. -/
theorem pg_db_equiv (gs : List Group) (vs : List Video) (st : PgState) :
    createPgStorage.saveData ⟨some gs, some vs⟩ st = db.saveData ⟨some gs, some vs⟩ st ∧
    db.updateGroup = createPgStorage.updateGroup := by
  refine ⟨?_, rfl⟩
  unfold createPgStorage.saveData db.saveData
  rcases h : insertGroupsLoop gs { st with groups := [], videos := [] } with ⟨e, st1⟩
  cases e <;> simp [h]

-- ============================================
-- Claim C7: listGroups ordering
-- ============================================

def dC7 : DataSet := ⟨[⟨"a", "zeta", none⟩, ⟨"b", "alpha", none⟩], []⟩

/-- C7 counterexample: the flat-file backend's listGroups returns the
stored order — here the name zeta precedes alpha — which is not ascending
by name, contradicting the claim that both backends sort by name. -/
theorem getGroups_unsorted_cex :
    (fileStorage.getGroups dC7).map Group.name = ["zeta", "alpha"] ∧
    ¬ List.Sorted nameLe (fileStorage.getGroups dC7) := by decide

/-- C7 (amended): the relational backend's listGroups is sorted by name
ascending; the flat-file backend's listGroups returns the groups in stored
(insertion) order, with no sorting. -/
theorem getGroups_order (st : PgState) (d : DataSet) :
    List.Sorted nameLe (createPgStorage.getGroups st) ∧
    fileStorage.getGroups d = d.groups :=
  ⟨getGroups_sorted st, rfl⟩

end ShowThem
